import Mathlib

/-!
Verification of the edgequake-pdf2md conversion pipeline.

Shallow embedding of the Rust sources over `List Char` (text) and `Nat`
(machine integers, with explicit `% 2 ^ w` where overflow matters).
Source files embedded: `src/pipeline/postprocess.rs`, `src/pipeline/llm.rs`,
`src/pipeline/input.rs`, `src/config.rs`, `src/convert.rs`, `src/stream.rs`.
Wall-clock durations, logging and progress callbacks are not modelled.
-/

namespace Pdf2Md

/-- Text is modelled as a list of unicode scalar values, mirroring Rust `String`. -/
abbrev Str := List Char

/-- The Unicode `White_Space` property, the set used by Rust's
`char::is_whitespace` (and by `\s` in the `regex` crate). -/
def isRustWhitespace (c : Char) : Bool :=
  c ∈ ['\x09', '\x0a', '\x0b', '\x0c', '\x0d', '\x20',
       '\u0085', '\u00A0', '\u1680',
       '\u2000', '\u2001', '\u2002', '\u2003', '\u2004', '\u2005',
       '\u2006', '\u2007', '\u2008', '\u2009', '\u200A',
       '\u2028', '\u2029', '\u202F', '\u205F', '\u3000']

/-- Rust `str::trim_start`. -/
def rustTrimStart (s : Str) : Str := s.dropWhile isRustWhitespace

/-- Rust `str::trim_end`. -/
def rustTrimEnd (s : Str) : Str := (s.reverse.dropWhile isRustWhitespace).reverse

/-- Rust `str::trim`. -/
def rustTrim (s : Str) : Str := rustTrimEnd (rustTrimStart s)

/-- Sum of UTF-8 byte lengths: Rust `str::len` counts bytes, not chars. -/
def utf8Len (s : Str) : Nat := s.foldl (fun n c => n + c.utf8Size) 0

/-- Split a string at every occurrence of `sep` (Rust `str::split`):
always returns one more part than there are separators. -/
def splitOnChar (sep : Char) : Str → List Str
  | [] => [[]]
  | c :: rest =>
    if c = sep then [] :: splitOnChar sep rest
    else (splitOnChar sep rest).modifyHead (fun l => c :: l)

/-- Rust `str::lines`: split on `'\n'`, drop a final empty piece (so a
trailing newline produces no extra line), and strip one trailing `'\r'`
from each line. -/
def rustLines (s : Str) : List Str :=
  let parts := splitOnChar '\n' s
  let parts := if parts.getLast? = some [] then parts.dropLast else parts
  parts.map (fun l => if l.getLast? = some '\x0d' then l.dropLast else l)

/-- Join lines with `'\n'` (Rust `Vec::join("\n")`). -/
def joinNl (ls : List Str) : Str := List.intercalate ['\n'] ls

-- ── postprocess.rs, rule 1: strip outer markdown fences ──────────────────

/-- Matching of the anchored regex `(?s)^```(?:markdown)?\n(.*)\n``` \s*$`
against the *trimmed* input `t`.  Because `t` carries no trailing
whitespace, `\s*` must be empty and the greedy `(.*)` forces the closing
fence to sit at the very end; the two prefix alternatives are mutually
exclusive (`markdown` does not start with `'\n'`). -/
def fenceBody (t : Str) : Option Str :=
  let tryPre : Str → Option Str := fun p =>
    if p.isPrefixOf t then
      let rest := t.drop p.length
      if 4 ≤ rest.length ∧ rest.drop (rest.length - 4) = '\n' :: ('`' :: '`' :: ['`']) then
        some (rest.take (rest.length - 4))
      else none
    else none
  match tryPre ("```markdown\n".data) with
  | some body => some body
  | none => tryPre ("```\n".data)

/-- `strip_markdown_fences` from postprocess.rs. -/
def strip_markdown_fences (input : Str) : Str :=
  match fenceBody (rustTrim input) with
  | some body => body
  | none => input

-- ── postprocess.rs, rule 2: normalise line endings ───────────────────────

/-- Rust `str::replace("\r\n", "\n")`: leftmost, non-overlapping. -/
def replaceCrlf : Str → Str
  | [] => []
  | '\x0d' :: '\x0a' :: rest => '\x0a' :: replaceCrlf rest
  | c :: rest => c :: replaceCrlf rest

/-- `normalise_line_endings` from postprocess.rs. -/
def normalise_line_endings (input : Str) : Str :=
  (replaceCrlf input).map (fun c => if c = '\x0d' then '\x0a' else c)

-- ── postprocess.rs, rule 3: trim trailing whitespace per line ────────────

/-- `trim_trailing_whitespace` from postprocess.rs. -/
def trim_trailing_whitespace (input : Str) : Str :=
  joinNl ((rustLines input).map rustTrimEnd)

-- ── postprocess.rs, rule 4: collapse 4+ newlines to 3 ────────────────────

/-- Scanner for the regex `\n{4,}` replaced by `"\n\n\n"`: every maximal
run of `k ≥ 4` newlines becomes 3, shorter runs are kept. -/
def collapseAux : Str → Nat → Str
  | [], run => List.replicate (min run 3) '\n'
  | c :: rest, run =>
    if c = '\n' then collapseAux rest (run + 1)
    else List.replicate (min run 3) '\n' ++ c :: collapseAux rest 0

/-- `collapse_blank_lines` from postprocess.rs. -/
def collapse_blank_lines (input : Str) : Str := collapseAux input 0

-- ── postprocess.rs, rule 5 (source order): ensure single final newline ───

/-- `ensure_final_newline` from postprocess.rs. -/
def ensure_final_newline (input : Str) : Str :=
  let trimmed := rustTrimEnd input
  if trimmed = [] then ['\n'] else trimmed ++ ['\n']

-- ── postprocess.rs, rule 6: heading spacing ──────────────────────────────

/-- The heading test from `normalise_heading_spacing`:
`line.starts_with('#') && line.chars().nth(line.find(' ').unwrap_or(0)).is_some()`.
`find` yields a *byte* index, `nth` counts *chars*; both are modelled. -/
def isHeadingLine (line : Str) : Bool :=
  match line with
  | [] => false
  | c :: _ =>
    c = '#' &&
      (let noSpacePrefix := line.takeWhile (fun c => ¬ c = ' ')
       let idx := if noSpacePrefix.length = line.length then 0 else utf8Len noSpacePrefix
       decide (idx < line.length))

/-- `result.trim_end_matches('\n')` from the heading pass. -/
def dropTrailingNewlines (s : Str) : Str :=
  (s.reverse.dropWhile (fun c => c = '\n')).reverse

/-- `normalise_heading_spacing` from postprocess.rs. -/
def normalise_heading_spacing (input : Str) : Str :=
  ((rustLines input).foldl
    (fun (acc : Str × Nat) line =>
      let result := acc.1
      let result :=
        if isHeadingLine line ∧ 0 < acc.2 then
          dropTrailingNewlines result ++ ['\n', '\n']
        else result
      (result ++ line ++ ['\n'], acc.2 + 1))
    ([], 0)).1

-- ── postprocess.rs, rule 7: fix broken GFM tables ────────────────────────

/-- `is_table_row` from postprocess.rs (`len() > 2` counts bytes). -/
def is_table_row (line : Str) : Bool :=
  let t := rustTrim line
  t.head? = some '|' && t.getLast? = some '|' && decide (2 < utf8Len t)

/-- `is_separator_row` from postprocess.rs. -/
def is_separator_row (line : Str) : Bool :=
  let t := rustTrim line
  t.head? = some '|' && t.all (fun c => c = '|' || c = '-' || c = ':' || c = ' ')

/-- Separator construction: `"|"` followed by `col_count` copies of `" --- |"`
with `col_count = line.matches('|').count().saturating_sub(1).max(1)`. -/
def mkSeparatorRow (line : Str) : Str :=
  let colCount := max ((line.count '|') - 1) 1
  '|' :: (List.replicate colCount (" --- |".data)).flatten

/-- The line loop of `fix_broken_tables`. -/
def fixTablesLoop : List Str → List Str
  | [] => []
  | line :: rest =>
    if is_table_row line ∧ ¬ is_separator_row line then
      let next := rest.headD []
      if is_table_row next ∧ ¬ is_separator_row next then
        line :: mkSeparatorRow line :: fixTablesLoop rest
      else line :: fixTablesLoop rest
    else line :: fixTablesLoop rest

/-- `fix_broken_tables` from postprocess.rs. -/
def fix_broken_tables (input : Str) : Str :=
  joinNl (fixTablesLoop (rustLines input))

-- ── postprocess.rs, rule 8 (source order): strip invisible unicode ───────

/-- The six characters stripped by `remove_invisible_chars`. -/
def invisibleChars : List Char :=
  ['\u200B', '\uFEFF', '\u00AD', '\u200C', '\u200D', '\u2060']

/-- `remove_invisible_chars` from postprocess.rs
(`str::replace` with a char-set pattern and `""` deletes every occurrence). -/
def remove_invisible_chars (input : Str) : Str :=
  input.filter (fun c => ¬ c ∈ invisibleChars)

-- ── postprocess.rs, rule 9: remove hallucinated image links ──────────────

/-- The fixed placeholder-domain list from `is_placeholder_url`. -/
def fakeDomains : List Str :=
  ["example.com".data, "placeholder.com".data, "via.placeholder.com".data,
   "dummyimage.com".data, "lorempixel.com".data, "picsum.photos".data,
   "placehold.it".data]

/-- Rust `str::contains(&str)`: substring search (true at any position,
an empty pattern always matches). -/
def strContains (s pat : Str) : Bool :=
  pat.isPrefixOf s ||
    match s with
    | [] => false
    | _ :: rest => strContains rest pat

/-- `is_placeholder_url` from postprocess.rs.  Note the final test is
`u.contains(d)`: plain substring search over the whole url. -/
def is_placeholder_url (url : Str) : Bool :=
  if rustTrim url = [] then true
  else if ¬ (("http://".data).isPrefixOf (rustTrim url) ∨ ("https://".data).isPrefixOf (rustTrim url)) then true
  else fakeDomains.any (fun d => strContains (rustTrim url) d)

/-- Split at the first occurrence of `sep`: `some (before, after)` with the
separator consumed, `none` when `sep` does not occur. -/
def splitFirst (sep : Char) : Str → Option (Str × Str)
  | [] => none
  | c :: rest =>
    if c = sep then some ([], rest)
    else (splitFirst sep rest).map (fun p => (c :: p.1, p.2))

/-- The replacement the closure in `remove_hallucinated_images` produces for
a match `![alt](url)`. -/
def imageReplacement (alt url : Str) : Str :=
  if is_placeholder_url url then
    let a := rustTrim alt
    if a = [] then [] else '*' :: a ++ ['*']
  else '!' :: '[' :: alt ++ ']' :: '(' :: url ++ [')']

/-- Left-to-right scan of `Regex::replace_all` for `!\[([^\]]*)\]\(([^)]*)\)`:
the character classes exclude the closing delimiters, so a match at a
position is forced (alt = up to the first `']'`, url = up to the first
`')'`); on a match the scan resumes after it, otherwise one char ahead.
`fuel` bounds the recursion and is instantiated with the input length,
which the scan never exceeds (each step consumes at least one char). -/
def rmImagesAux : Nat → Str → Str
  | _, [] => []
  | 0, s => s
  | fuel + 1, c :: cs =>
    if c = '!' then
      match cs with
      | '[' :: rest =>
        match splitFirst ']' rest with
        | some (alt, rest2) =>
          match rest2 with
          | '(' :: rest3 =>
            match splitFirst ')' rest3 with
            | some (url, rest4) => imageReplacement alt url ++ rmImagesAux fuel rest4
            | none => c :: rmImagesAux fuel cs
          | _ => c :: rmImagesAux fuel cs
        | none => c :: rmImagesAux fuel cs
      | _ => c :: rmImagesAux fuel cs
    else c :: rmImagesAux fuel cs

/-- `remove_hallucinated_images` from postprocess.rs. -/
def remove_hallucinated_images (input : Str) : Str :=
  rmImagesAux input.length input

-- ── postprocess.rs, rule 10: remove spurious mid-table separators ────────

/-- The stateful line scan of `remove_mid_table_separators`. -/
def rmMidSepLoop : List Str → Bool → Nat → List Str
  | [], _, _ => []
  | line :: rest, inTable, cnt =>
    if is_table_row line then
      let cnt' := (if inTable then cnt else 0) + 1
      if is_separator_row line ∧ cnt' ≠ 2 then rmMidSepLoop rest true cnt'
      else line :: rmMidSepLoop rest true cnt'
    else line :: rmMidSepLoop rest false 0

/-- `remove_mid_table_separators` from postprocess.rs. -/
def remove_mid_table_separators (input : Str) : Str :=
  joinNl (rmMidSepLoop (rustLines input) false 0)

-- ── postprocess.rs: the full pipeline ────────────────────────────────────

/-- `clean_markdown` from postprocess.rs: the ten passes in source order. -/
def clean_markdown (input : Str) : Str :=
  let s := strip_markdown_fences input
  let s := normalise_line_endings s
  let s := trim_trailing_whitespace s
  let s := collapse_blank_lines s
  let s := normalise_heading_spacing s
  let s := fix_broken_tables s
  let s := remove_mid_table_separators s
  let s := remove_hallucinated_images s
  let s := remove_invisible_chars s
  ensure_final_newline s

-- ── config.rs: page selection, separators, configuration ─────────────────

/-- `PageSelection` from config.rs (1-indexed pages). -/
inductive PageSelection where
  | all : PageSelection
  | single (p : Nat) : PageSelection
  | range (start stop : Nat) : PageSelection
  | set (pages : List Nat) : PageSelection
deriving DecidableEq

/-- Rust `Vec::dedup`: remove *consecutive* duplicates. -/
def dedupConsecutive : List Nat → List Nat
  | [] => []
  | [a] => [a]
  | a :: b :: rest =>
    if a = b then dedupConsecutive (b :: rest)
    else a :: dedupConsecutive (b :: rest)

/-- `PageSelection::to_indices` from config.rs: expand to 0-indexed
positions, then `sort_unstable` and `dedup`. -/
def to_indices (sel : PageSelection) (total_pages : Nat) : List Nat :=
  let indices : List Nat :=
    match sel with
    | .all => List.range total_pages
    | .single p => if 1 ≤ p ∧ p ≤ total_pages then [p - 1] else []
    | .range start stop =>
      let s := max start 1 - 1
      let e := min stop total_pages
      List.range' s (e - s)
    | .set pages => (pages.filter (fun p => 1 ≤ p ∧ p ≤ total_pages)).map (fun p => p - 1)
  dedupConsecutive (indices.mergeSort (fun a b => a ≤ b))

/-- `PageSeparator` from config.rs. -/
inductive PageSeparator where
  | none : PageSeparator
  | horizontalRule : PageSeparator
  | comment : PageSeparator
  | custom (s : Str) : PageSeparator
deriving DecidableEq

/-- `PageSeparator::render` from config.rs (`page_num` is 1-indexed). -/
def PageSeparator.render (sep : PageSeparator) (page_num : Nat) : Str :=
  match sep with
  | .none => "\n\n".data
  | .horizontalRule => "\n\n---\n\n".data
  | .comment => "\n\n<!-- page ".data ++ (Nat.repr page_num).data ++ " -->\n\n".data
  | .custom s => "\n\n".data ++ s ++ "\n\n".data

/-- `FidelityTier` from config.rs. -/
inductive FidelityTier where
  | tier1 : FidelityTier
  | tier2 : FidelityTier
  | tier3 : FidelityTier
deriving DecidableEq

/-- `ConversionConfig` from config.rs.  The `f32` field `temperature`, the
pre-built provider handle and the progress callback are not modelled
(floating point / function-valued fields play no role in the claims). -/
structure ConversionConfig where
  dpi : Nat
  max_rendered_pixels : Nat
  concurrency : Nat
  model : Option Str
  provider_name : Option Str
  max_tokens : Nat
  max_retries : Nat
  retry_backoff_ms : Nat
  password : Option Str
  system_prompt : Option Str
  maintain_format : Bool
  fidelity : FidelityTier
  pages : PageSelection
  page_separator : PageSeparator
  include_metadata : Bool
  download_timeout_secs : Nat
  api_timeout_secs : Nat
deriving DecidableEq

/-- `ConversionConfig::default()` from config.rs. -/
def defaultConfig : ConversionConfig :=
  { dpi := 150
    max_rendered_pixels := 2000
    concurrency := 10
    model := Option.none
    provider_name := Option.none
    max_tokens := 4096
    max_retries := 3
    retry_backoff_ms := 500
    password := Option.none
    system_prompt := Option.none
    maintain_format := false
    fidelity := .tier2
    pages := .all
    page_separator := .none
    include_metadata := false
    download_timeout_secs := 120
    api_timeout_secs := 60 }

-- ── error.rs: page-level and fatal errors ────────────────────────────────

/-- `PageError` from error.rs (`retries` is a `u8`, stored mod `2 ^ 8`). -/
inductive PageError where
  | renderFailed (page : Nat) (detail : Str)
  | llmFailed (page : Nat) (retries : Nat) (detail : Str)
  | timeout (page : Nat) (secs : Nat)
deriving DecidableEq

/-- The `thiserror` `Display` strings of `PageError` from error.rs. -/
def PageError.display : PageError → Str
  | .renderFailed page detail =>
    "Page ".data ++ (Nat.repr page).data ++ ": rasterisation failed: ".data ++ detail
  | .llmFailed page retries detail =>
    "Page ".data ++ (Nat.repr page).data ++ ": LLM call failed after ".data ++
      (Nat.repr retries).data ++ " retries: ".data ++ detail
  | .timeout page secs =>
    "Page ".data ++ (Nat.repr page).data ++ ": LLM call timed out after ".data ++
      (Nat.repr secs).data ++ "s".data

/-- The fatal error type `Pdf2MdError` from error.rs, restricted to the
variants reachable from the embedded pipeline fragments. -/
inductive Pdf2MdError where
  | notAPdf (path : Str) (magic : List Nat)
  | pageOutOfRange (page total : Nat)
  | allPagesFailed (total : Nat) (retries : Nat) (first_error : Str)
deriving DecidableEq

-- ── output.rs (absent from src/): per-page results ───────────────────────

/-- Modelled from the spec: `output.rs` is not under `src/`; spec section 3
lists `PageResult` as "1-indexed page number, markdown text (empty on
failure), input/output token counts, duration ms, retry count actually
used, optional `PageError`"; the construction sites in llm.rs fix the
field names and the `u8` type of `retries`.  `duration_ms` (wall-clock) is
not modelled. -/
structure PageResult where
  page_num : Nat
  markdown : Str
  input_tokens : Nat
  output_tokens : Nat
  retries : Nat
  error : Option PageError
deriving DecidableEq

-- ── llm.rs: message construction and the retry loop ──────────────────────

/-- Image payloads are opaque tokens here: their content never influences
control flow in llm.rs / convert.rs / stream.rs. -/
abbrev ImageData := Nat

/-- The shape of `edgequake_llm::ChatMessage` as used by llm.rs. -/
inductive ChatMessage where
  | system (content : Str)
  | userWithImages (content : Str) (images : List ImageData)
deriving DecidableEq

/-- The provider response fields used by llm.rs. -/
structure ChatResponse where
  content : Str
  prompt_tokens : Nat
  completion_tokens : Nat
deriving DecidableEq

/-- A provider is modelled as a function from the message list and the
attempt number (capturing transient-failure state) to an outcome. -/
abbrev Provider := List ChatMessage → Nat → Except Str ChatResponse

/-- Placeholder for the (content-irrelevant, spec section 1: "Prompt text
catalog — only the *shape* of messages matters") constant
`DEFAULT_SYSTEM_PROMPT` from prompts.rs. -/
def DEFAULT_SYSTEM_PROMPT : Str := "DEFAULT_SYSTEM_PROMPT".data

/-- `maintain_format_context` from prompts.rs. -/
def maintain_format_context (prior_page : Str) : Str :=
  "Markdown must maintain consistent formatting with the following page:\n\n\"\"\"".data
    ++ prior_page ++ "\"\"\"".data

/-- The message list built by `process_page` in llm.rs: system prompt,
an optional format-continuity system message (only in maintain-format
mode, with a non-empty prior page), and the user message carrying the
image with empty text. -/
def buildMessages (cfg : ConversionConfig) (prior_page : Option Str)
    (image_data : ImageData) : List ChatMessage :=
  [ChatMessage.system (cfg.system_prompt.getD DEFAULT_SYSTEM_PROMPT)]
    ++ (if cfg.maintain_format then
          match prior_page with
          | some prior => if prior ≠ [] then [ChatMessage.system (maintain_format_context prior)] else []
          | Option.none => []
        else [])
    ++ [ChatMessage.userWithImages [] [image_data]]

/-- The retry loop of `process_page`: attempts `i, i+1, ...` with `left`
further attempts allowed after attempt `i`; the first `Ok` wins, and on
exhaustion the *last* error message is returned (the backoff sleeps are
not modelled). -/
def attemptLoop (provider : Provider) (messages : List ChatMessage) :
    Nat → Nat → Except Str (Nat × ChatResponse)
  | i, left =>
    match provider messages i with
    | .ok r => .ok (i, r)
    | .error e =>
      match left with
      | 0 => .error e
      | left + 1 => attemptLoop provider messages (i + 1) left

/-- `process_page` from llm.rs: build the messages, run attempts
`0 ..= max_retries`, and always return a `PageResult` (`retries` is cast
`as u8`, i.e. reduced mod `2 ^ 8`). -/
def process_page (provider : Provider) (page_num : Nat) (image_data : ImageData)
    (prior_page : Option Str) (cfg : ConversionConfig) : PageResult :=
  match attemptLoop provider (buildMessages cfg prior_page image_data) 0 cfg.max_retries with
  | .ok (attempt, response) =>
    { page_num := page_num
      markdown := response.content
      input_tokens := response.prompt_tokens
      output_tokens := response.completion_tokens
      retries := attempt % 2 ^ 8
      error := Option.none }
  | .error e =>
    { page_num := page_num
      markdown := []
      input_tokens := 0
      output_tokens := 0
      retries := cfg.max_retries % 2 ^ 8
      error := some (.llmFailed page_num (cfg.max_retries % 2 ^ 8) e) }

-- ── render.rs: the encoded-page payload ──────────────────────────────────

/-- `EncodedPage` from pipeline/render.rs: 0-indexed page position, the
encoded image payload and the render+encode duration. -/
structure EncodedPage where
  page_index : Nat
  image_data : ImageData
  render_encode_ms : Nat
deriving DecidableEq

-- ── convert.rs: sequential scheduler (maintain_format = true) ────────────

/-- The loop body of `process_sequential_lazy` from convert.rs, with the
`prior_markdown` value passed into each VLM call recorded alongside the
result: `prior_markdown` starts as the given value and is replaced by
`result.markdown` exactly when `result.error.is_none()`. -/
def seqLazyTrace (provider : Provider) (cfg : ConversionConfig) :
    List EncodedPage → Option Str → List (Option Str × PageResult)
  | [], _ => []
  | page :: rest, prior =>
    let result := process_page provider (page.page_index + 1) page.image_data prior cfg
    (prior, result) ::
      seqLazyTrace provider cfg rest
        (if result.error.isNone then some result.markdown else prior)

/-- `process_sequential_lazy` from convert.rs: the results in channel
order, plus the accumulated render+encode milliseconds. -/
def process_sequential_lazy (provider : Provider) (cfg : ConversionConfig)
    (pages : List EncodedPage) : List PageResult × Nat :=
  ((seqLazyTrace provider cfg pages Option.none).map Prod.snd,
    (pages.map (fun p => p.render_encode_ms)).sum)

-- ── output.rs (absent from src/): document metadata ──────────────────────

/-- Modelled from the spec: `output.rs` is not under `src/`; spec section 3
lists `DocumentMetadata` fields, of which `format_yaml_front_matter` in
convert.rs reads `title`, `author`, `subject`, `creator`, `producer`,
`page_count` and `pdf_version`. -/
structure DocumentMetadata where
  title : Option Str
  author : Option Str
  subject : Option Str
  creator : Option Str
  producer : Option Str
  page_count : Nat
  pdf_version : Str
deriving DecidableEq

/-- `format_yaml_front_matter` from convert.rs. -/
def format_yaml_front_matter (meta : DocumentMetadata) : Str :=
  let fld : Str → Option Str → Str := fun name v =>
    match v with
    | some s => name ++ ": \"".data ++ s ++ "\"\n".data
    | Option.none => []
  "---\n".data
    ++ fld ("title".data) meta.title
    ++ fld ("author".data) meta.author
    ++ fld ("subject".data) meta.subject
    ++ fld ("creator".data) meta.creator
    ++ fld ("producer".data) meta.producer
    ++ "pages: ".data ++ (Nat.repr meta.page_count).data ++ "\n".data
    ++ (if meta.pdf_version ≠ [] then
          "pdf_version: \"".data ++ meta.pdf_version ++ "\"\n".data
        else [])
    ++ "---\n\n".data

-- ── convert.rs: document assembly ────────────────────────────────────────

/-- `assemble_document` from convert.rs: optional YAML front-matter, then
for each successful page (in list order) the separator — rendered for
that page's number, skipped for the first successful page — followed by
its markdown; all parts concatenated. -/
def assemble_document (pages : List PageResult) (cfg : ConversionConfig)
    (meta : DocumentMetadata) : Str :=
  ((if cfg.include_metadata then [format_yaml_front_matter meta] else [])
    ++ ((pages.filter (fun p => p.error.isNone)).enum.map (fun ip =>
          (if ip.1 ≠ 0 then cfg.page_separator.render ip.2.page_num else []) ++
            ip.2.markdown))).flatten

/-- The sort in convert.rs step 8: `pages.sort_by_key(|p| p.page_num)`
(a stable sort, modelled by `mergeSort` which is also stable). -/
def sortByPageNum (pages : List PageResult) : List PageResult :=
  pages.mergeSort (fun p q => p.page_num ≤ q.page_num)

/-- The output value assembled by `convert` (stats and metadata echoing are
omitted; they carry no claim content). -/
structure ConversionOutput where
  markdown : Str
  pages : List PageResult
deriving DecidableEq

/-- Step 8 of `convert` from convert.rs: post-process the markdown of every
successful page, leave failed pages untouched. -/
def postprocessPages (page_results : List PageResult) : List PageResult :=
  page_results.map (fun pr =>
    if pr.error.isNone then { pr with markdown := clean_markdown pr.markdown } else pr)

/-- Steps 8–10 of `convert` from convert.rs, starting from the page results
the scheduler produced: post-process the successful pages, sort by page
number, assemble, and fail with `AllPagesFailed` exactly when the count of
successful pages (`processed`) is zero. -/
def convertFinish (page_results : List PageResult) (cfg : ConversionConfig)
    (meta : DocumentMetadata) : Except Pdf2MdError ConversionOutput :=
  if ((sortByPageNum (postprocessPages page_results)).filter
      (fun p => p.error.isNone)).length = 0 then
    .error (.allPagesFailed (sortByPageNum (postprocessPages page_results)).length
      cfg.max_retries
      ((((sortByPageNum (postprocessPages page_results)).findSome? (fun p => p.error)).map
          PageError.display).getD ("Unknown error".data)))
  else
    .ok { markdown := assemble_document (sortByPageNum (postprocessPages page_results)) cfg meta
          pages := sortByPageNum (postprocessPages page_results) }

-- ── stream.rs: the sequential (maintain_format) streaming branch ─────────

/-- The per-page closure of the `maintain_format` branch of
`convert_stream` in stream.rs: `process_page` is invoked with
`prior_markdown = None`; a success is post-processed and yielded `Ok`,
a failure yields its `PageError` as `Err`. -/
def streamSeqStep (provider : Provider) (cfg : ConversionConfig)
    (idx : Nat) (img : ImageData) : Except PageError PageResult :=
  let result := process_page provider (idx + 1) img Option.none cfg
  match result.error with
  | Option.none => .ok { result with markdown := clean_markdown result.markdown }
  | some e => .error e

/-- The `maintain_format = true` stream of `convert_stream`
(`stream::iter(encoded).then(...)`: one page at a time, in order). -/
def convertStreamSeq (provider : Provider) (cfg : ConversionConfig) :
    List (Nat × ImageData) → List (Except PageError PageResult)
  | [] => []
  | (idx, img) :: rest =>
    streamSeqStep provider cfg idx img :: convertStreamSeq provider cfg rest

-- ── input.rs: PDF magic validation ───────────────────────────────────────

/-- The four magic bytes `%PDF`. -/
def pdfMagic : List Nat := [0x25, 0x50, 0x44, 0x46]

/-- Rust `Read::read_exact` into a 4-byte buffer on a regular file:
succeeds with the first four bytes iff at least four are available. -/
def readExact4 (content : List Nat) : Option (List Nat) :=
  if 4 ≤ content.length then some (content.take 4) else Option.none

/-- The magic-byte validation of `resolve_local` from input.rs
(`if f.read_exact(&mut magic).is_ok() && &magic != b"%PDF"`), applied to
an existing, readable file with the given byte content. -/
def resolveLocalMagicCheck (path : Str) (content : List Nat) : Except Pdf2MdError Unit :=
  match readExact4 content with
  | some magic => if magic ≠ pdfMagic then .error (.notAPdf path magic) else .ok ()
  | Option.none => .ok ()

/-- The magic-byte validation of `download_url` from input.rs
(`if bytes.len() >= 4 && &bytes[..4] != b"%PDF"`). -/
def downloadMagicCheck (path : Str) (bytes : List Nat) : Except Pdf2MdError Unit :=
  if 4 ≤ bytes.length ∧ bytes.take 4 ≠ pdfMagic then
    .error (.notAPdf path (bytes.take 4))
  else .ok ()

-- ═══════════════════════════ Helper lemmas ══════════════════════════════

theorem dropWhile_idem {α : Type} (p : α → Bool) (l : List α) :
    List.dropWhile p (List.dropWhile p l) = List.dropWhile p l := by
  induction l with
  | nil => rfl
  | cons a l ih =>
    by_cases h : p a = true
    · simp [List.dropWhile_cons, h, ih]
    · simp [List.dropWhile_cons, h]

theorem head?_dropWhile {α : Type} (p : α → Bool) (l : List α) (a : α)
    (h : (List.dropWhile p l).head? = some a) : p a = false := by
  induction l with
  | nil => simp [List.dropWhile] at h
  | cons b l ih =>
    by_cases hb : p b = true
    · rw [List.dropWhile_cons_of_pos hb] at h
      exact ih h
    · rw [List.dropWhile_cons_of_neg hb] at h
      simp at h
      subst h
      simpa using hb

theorem rustTrimEnd_concat_nl (s : Str) : rustTrimEnd (s ++ ['\n']) = rustTrimEnd s := by
  simp [rustTrimEnd, List.reverse_append, List.dropWhile_cons,
    show isRustWhitespace '\n' = true from rfl]

theorem rustTrimEnd_idem (s : Str) : rustTrimEnd (rustTrimEnd s) = rustTrimEnd s := by
  simp [rustTrimEnd, List.reverse_reverse, dropWhile_idem]

theorem rustTrimEnd_getLast? (s : Str) (c : Char)
    (h : (rustTrimEnd s).getLast? = some c) : isRustWhitespace c = false := by
  rw [rustTrimEnd, List.getLast?_reverse] at h
  exact head?_dropWhile _ _ _ h

theorem mem_rustTrimEnd (s : Str) (c : Char) (h : c ∈ rustTrimEnd s) : c ∈ s := by
  rw [rustTrimEnd, List.mem_reverse] at h
  have := (List.dropWhile_sublist (l := s.reverse) isRustWhitespace).subset h
  simpa using this

theorem ensure_final_newline_eq (u : Str) :
    ensure_final_newline u =
      if rustTrimEnd u = [] then ['\n'] else rustTrimEnd u ++ ['\n'] := rfl

theorem ensure_final_newline_idem (u : Str) :
    ensure_final_newline (ensure_final_newline u) = ensure_final_newline u := by
  by_cases h : rustTrimEnd u = []
  · rw [ensure_final_newline_eq u, if_pos h]
    decide
  · rw [ensure_final_newline_eq u, if_neg h, ensure_final_newline_eq,
      rustTrimEnd_concat_nl, rustTrimEnd_idem, if_neg h]

theorem ensure_final_newline_shape (u : Str) :
    ∃ t, ensure_final_newline u = t ++ ['\n'] ∧ t.getLast? ≠ some '\n' := by
  by_cases h : rustTrimEnd u = []
  · exact ⟨[], by simp [ensure_final_newline, h]⟩
  · refine ⟨rustTrimEnd u, by simp [ensure_final_newline, h], ?_⟩
    intro hlast
    have := rustTrimEnd_getLast? u _ hlast
    exact (by decide : isRustWhitespace '\n' ≠ false) this

theorem mem_ensure_final_newline (u : Str) (c : Char)
    (h : c ∈ ensure_final_newline u) : c ∈ u ∨ c = '\n' := by
  by_cases he : rustTrimEnd u = []
  · rw [ensure_final_newline_eq, if_pos he] at h
    simp at h
    exact Or.inr h
  · rw [ensure_final_newline_eq, if_neg he, List.mem_append] at h
    rcases h with h | h
    · exact Or.inl (mem_rustTrimEnd _ _ h)
    · simp at h
      exact Or.inr h

theorem mem_remove_invisible_chars (u : Str) (c : Char)
    (h : c ∈ remove_invisible_chars u) : ¬ c ∈ invisibleChars := by
  rw [remove_invisible_chars, List.mem_filter] at h
  exact of_decide_eq_true h.2

-- ═══════════════════════════ Claim C1 ═══════════════════════════════════

/-- C1 counterexample: `clean_markdown` is not idempotent.  On
`"a\n\n![](u)\n\nb"` image removal (after the blank-line pass has already
run) creates a run of four newlines, which only the second pass collapses. -/
theorem clean_markdown_not_idempotent :
    clean_markdown (clean_markdown ("a\n\n![](u)\n\nb".data)) ≠
      clean_markdown ("a\n\n![](u)\n\nb".data) := by
  decide

/-- C1 (amended): `clean_markdown` is not idempotent as a whole; its output
is stable only under the final newline-normalisation pass:
`ensure_final_newline (clean_markdown x) = clean_markdown x` for every `x`. -/
theorem clean_markdown_fixed_by_final_newline (x : Str) :
    ensure_final_newline (clean_markdown x) = clean_markdown x := by
  simp only [clean_markdown]
  exact ensure_final_newline_idem _

-- ═══════════════════════════ Claim C4 ═══════════════════════════════════

/-- C4 counterexample: on `"\x60\x60\x60\na\n\n![](u)\n\nb"` (an unterminated
fence) the output of `clean_markdown` both starts with a line of triple
backticks and contains a run of four consecutive newlines. -/
theorem clean_markdown_output_violations :
    clean_markdown ("```\na\n\n![](u)\n\nb".data) = "```\na\n\n\n\nb\n".data ∧
    List.isPrefixOf ("```".data) (clean_markdown ("```\na\n\n![](u)\n\nb".data)) = true ∧
    strContains (clean_markdown ("```\na\n\n![](u)\n\nb".data)) "\n\n\n\n".data = true := by
  refine ⟨by decide, by decide, by decide⟩

/-- C4 (amended): for every input `x`, `clean_markdown x` ends with exactly
one newline and contains none of the six stripped invisible characters;
the no-4-newline-run and no-leading-fence guarantees of the original claim
do not hold in general. -/
theorem clean_markdown_output_invariants (x : Str) :
    (∃ t, clean_markdown x = t ++ ['\n'] ∧ t.getLast? ≠ some '\n') ∧
    ∀ c ∈ clean_markdown x, ¬ c ∈ invisibleChars := by
  constructor
  · simp only [clean_markdown]
    exact ensure_final_newline_shape _
  · intro c hc
    simp only [clean_markdown] at hc
    rcases mem_ensure_final_newline _ _ hc with h | h
    · exact mem_remove_invisible_chars _ _ h
    · subst h
      decide

/-- C4 witness: the invariants instantiated at a concrete input. -/
theorem clean_markdown_output_invariants_witness :
    (∃ t, clean_markdown ("# T".data) = t ++ ['\n'] ∧ t.getLast? ≠ some '\n') ∧
    ∀ c ∈ clean_markdown ("# T".data), ¬ c ∈ invisibleChars :=
  clean_markdown_output_invariants ("# T".data)

-- ═══════════════════════════ Claim C3 ═══════════════════════════════════

/-- The literal text of an image link `![alt](url)`. -/
def mkImageLink (alt url : Str) : Str :=
  '!' :: '[' :: alt ++ ']' :: '(' :: url ++ [')']

theorem splitFirst_of_no_sep (sep : Char) (a r : Str) (h : ∀ c ∈ a, ¬ c = sep) :
    splitFirst sep (a ++ sep :: r) = some (a, r) := by
  induction a with
  | nil => simp [splitFirst]
  | cons c a ih =>
    have hc : ¬ c = sep := h c (by simp)
    simp only [List.cons_append, splitFirst, if_neg hc]
    simp [ih (fun x hx => h x (by simp [hx]))]

theorem rmImagesAux_nil (f : Nat) : rmImagesAux f [] = [] := by
  cases f <;> rfl

theorem rmImagesAux_image_link (f : Nat) (alt url : Str)
    (halt : ∀ c ∈ alt, ¬ c = ']') (hurl : ∀ c ∈ url, ¬ c = ')') :
    rmImagesAux (f + 1) ('!' :: '[' :: (alt ++ (']' :: '(' :: (url ++ [')'])))) =
      imageReplacement alt url := by
  have hs : splitFirst ']' (alt ++ (']' :: '(' :: (url ++ [')']))) =
      some (alt, '(' :: (url ++ [')'])) := splitFirst_of_no_sep ']' alt _ halt
  have hu : splitFirst ')' (url ++ [')']) = some (url, []) := by
    have := splitFirst_of_no_sep ')' url [] hurl
    simpa using this
  simp only [rmImagesAux, if_pos rfl, hs, hu]
  simp

theorem is_placeholder_url_false_iff (url : Str) :
    is_placeholder_url url = false ↔
      ((("http://".data).isPrefixOf (rustTrim url) ∨ ("https://".data).isPrefixOf (rustTrim url))
        ∧ ∀ d ∈ fakeDomains, strContains (rustTrim url) d = false) := by
  by_cases h1 : rustTrim url = []
  · have hv : is_placeholder_url url = true := by
      unfold is_placeholder_url
      rw [if_pos h1]
    rw [hv]
    apply iff_of_false
    · simp
    · rintro ⟨hp, -⟩
      rw [h1] at hp
      rcases hp with hp | hp
      · exact absurd hp (by decide)
      · exact absurd hp (by decide)
  · by_cases h2 : ("http://".data).isPrefixOf (rustTrim url) = true ∨
        ("https://".data).isPrefixOf (rustTrim url) = true
    · have hred : is_placeholder_url url = fakeDomains.any (fun d => strContains (rustTrim url) d) := by
        unfold is_placeholder_url
        rw [if_neg h1, if_neg (not_not_intro h2)]
      rw [hred, List.any_eq_false]
      constructor
      · intro hall
        exact ⟨h2, fun d hd => by simpa using hall d hd⟩
      · rintro ⟨-, hall⟩
        intro d hd
        simp [hall d hd]
    · have hv : is_placeholder_url url = true := by
        unfold is_placeholder_url
        rw [if_neg h1, if_pos h2]
      rw [hv]
      apply iff_of_false
      · simp
      · rintro ⟨hp, -⟩
        exact h2 hp

/-- C3 counterexample: the code trims the alt text before italicising it
(`"![ cap ](x)"` becomes `"*cap*"`, not `"* cap *"`), and it checks the
placeholder domains by *substring* over the whole url rather than by host:
`"![Fig](https://good.org/example.com/a.png)"` has host `good.org`, which is
not on the placeholder list, yet the link is replaced by `"*Fig*"` instead
of being kept verbatim. -/
theorem remove_hallucinated_images_counterexample :
    remove_hallucinated_images ("![ cap ](x)".data) = "*cap*".data ∧
    "*cap*".data ≠ "* cap *".data ∧
    remove_hallucinated_images ("![Fig](https://good.org/example.com/a.png)".data) =
      "*Fig*".data ∧
    "*Fig*".data ≠ "![Fig](https://good.org/example.com/a.png)".data := by
  exact ⟨by decide, by decide, by decide, by decide⟩

/-- C3 (amended): for an image link `![alt](url)` (alt without `']'`, url
without `')'`), the post-processor keeps the link verbatim iff the trimmed
url starts with `http://` or `https://` and none of the seven placeholder
domain strings occurs as a substring anywhere in it; otherwise the link is
replaced by the *trimmed* alt in italics, or by the empty string when the
trimmed alt is empty. -/
theorem remove_hallucinated_images_single (alt url : Str)
    (halt : ∀ c ∈ alt, ¬ c = ']') (hurl : ∀ c ∈ url, ¬ c = ')') :
    remove_hallucinated_images (mkImageLink alt url) =
      if (("http://".data).isPrefixOf (rustTrim url) ∨ ("https://".data).isPrefixOf (rustTrim url))
          ∧ ∀ d ∈ fakeDomains, strContains (rustTrim url) d = false then
        mkImageLink alt url
      else if rustTrim alt = [] then [] else '*' :: (rustTrim alt ++ ['*']) := by
  have hshape : mkImageLink alt url = '!' :: '[' :: (alt ++ (']' :: '(' :: (url ++ [')']))) := by
    simp [mkImageLink]
  have hlen : (mkImageLink alt url).length = (alt.length + url.length + 4) + 1 := by
    simp [mkImageLink]
    omega
  rw [remove_hallucinated_images, hlen, hshape, rmImagesAux_image_link _ _ _ halt hurl]
  rw [imageReplacement]
  by_cases hp : is_placeholder_url url = false
  · rw [if_pos ((is_placeholder_url_false_iff url).mp hp), hp]
    simp [mkImageLink]
  · have hp' : is_placeholder_url url = true := by
      cases h : is_placeholder_url url
      · exact absurd h hp
      · rfl
    rw [hp']
    rw [if_neg (fun hc => hp ((is_placeholder_url_false_iff url).mpr hc))]
    simp

/-- C3 witness: a kept link, instantiating the characterisation at a
concrete real-world url. -/
theorem remove_hallucinated_images_single_witness :
    remove_hallucinated_images (mkImageLink ("Fig".data) ("https://arxiv.org/f.png".data)) =
      if (("http://".data).isPrefixOf (rustTrim ("https://arxiv.org/f.png".data)) ∨
            ("https://".data).isPrefixOf (rustTrim ("https://arxiv.org/f.png".data)))
          ∧ ∀ d ∈ fakeDomains, strContains (rustTrim ("https://arxiv.org/f.png".data)) d = false then
        mkImageLink ("Fig".data) ("https://arxiv.org/f.png".data)
      else if rustTrim ("Fig".data) = [] then []
      else '*' :: (rustTrim ("Fig".data) ++ ['*']) :=
  remove_hallucinated_images_single _ _ (by decide) (by decide)

-- ═══════════════════════════ Claim C2 ═══════════════════════════════════

theorem attemptLoop_ok (provider : Provider) (messages : List ChatMessage) :
    ∀ (left i k : Nat) (resp : ChatResponse),
      attemptLoop provider messages i left = .ok (k, resp) →
      i ≤ k ∧ k ≤ i + left ∧ provider messages k = .ok resp ∧
        ∀ j, i ≤ j → j < k → (provider messages j).isOk = false := by
  intro left
  induction left with
  | zero =>
    intro i k resp h
    rw [attemptLoop] at h
    cases hp : provider messages i with
    | ok r =>
      rw [hp] at h
      injection h with h
      injection h with h1 h2
      subst h1
      subst h2
      exact ⟨le_refl _, by omega, hp, fun j hj1 hj2 => by omega⟩
    | error e =>
      rw [hp] at h
      cases h
  | succ l ih =>
    intro i k resp h
    rw [attemptLoop] at h
    cases hp : provider messages i with
    | ok r =>
      rw [hp] at h
      injection h with h
      injection h with h1 h2
      subst h1
      subst h2
      exact ⟨le_refl _, by omega, hp, fun j hj1 hj2 => by omega⟩
    | error e =>
      rw [hp] at h
      obtain ⟨h1, h2, h3, h4⟩ := ih (i + 1) k resp h
      refine ⟨by omega, by omega, h3, fun j hj1 hj2 => ?_⟩
      by_cases hj : j = i
      · subst hj
        rw [hp]
        rfl
      · exact h4 j (by omega) hj2

/-- A provider that fails on attempt 0 and succeeds from attempt 1 on. -/
def retryOnceProvider : Provider := fun _ attempt =>
  if attempt = 0 then .error ("503".data) else .ok ⟨"ok".data, 1, 1⟩

/-- C2 counterexample: with `max_retries = 1` and a provider that fails on
attempt 0 and succeeds on attempt 1, `process_page` returns a *successful*
result whose `retries` equals `config.max_retries`, contradicting
"`retries == max_retries` implies `error` is `Some`". -/
theorem process_page_retries_eq_max_success :
    (process_page retryOnceProvider 1 0 Option.none
        { defaultConfig with max_retries := 1 }).retries =
      ({ defaultConfig with max_retries := 1 } : ConversionConfig).max_retries ∧
    (process_page retryOnceProvider 1 0 Option.none
        { defaultConfig with max_retries := 1 }).error = Option.none := by
  exact ⟨by decide, by decide⟩

theorem process_page_retries_invariant (provider : Provider) (cfg : ConversionConfig)
    (page_num : Nat) (image_data : ImageData) (prior_page : Option Str) :
    (process_page provider page_num image_data prior_page cfg).retries ≤ cfg.max_retries ∧
    ((process_page provider page_num image_data prior_page cfg).retries = cfg.max_retries →
      (process_page provider page_num image_data prior_page cfg).error.isSome = true ∨
      ((process_page provider page_num image_data prior_page cfg).error = Option.none ∧
        (provider (buildMessages cfg prior_page image_data) cfg.max_retries).isOk = true ∧
        ∀ j < cfg.max_retries,
          (provider (buildMessages cfg prior_page image_data) j).isOk = false)) := by
  cases h : attemptLoop provider (buildMessages cfg prior_page image_data) 0 cfg.max_retries with
  | ok kr =>
    obtain ⟨k, resp⟩ := kr
    have hpp : process_page provider page_num image_data prior_page cfg =
        { page_num := page_num, markdown := resp.content, input_tokens := resp.prompt_tokens,
          output_tokens := resp.completion_tokens, retries := k % 2 ^ 8,
          error := Option.none } := by
      unfold process_page
      rw [h]
    obtain ⟨-, h2, h3, h4⟩ := attemptLoop_ok provider _ cfg.max_retries 0 k resp h
    rw [hpp]
    dsimp only
    have hmod := Nat.mod_le k (2 ^ 8)
    constructor
    · omega
    · intro heq
      have hk : k = cfg.max_retries := by omega
      subst hk
      refine Or.inr ⟨rfl, ?_, fun j hj => h4 j (by omega) hj⟩
      rw [h3]
      rfl
  | error e =>
    have hpp : process_page provider page_num image_data prior_page cfg =
        { page_num := page_num, markdown := [], input_tokens := 0, output_tokens := 0,
          retries := cfg.max_retries % 2 ^ 8,
          error := some (.llmFailed page_num (cfg.max_retries % 2 ^ 8) e) } := by
      unfold process_page
      rw [h]
    rw [hpp]
    dsimp only
    have hmod := Nat.mod_le cfg.max_retries (2 ^ 8)
    constructor
    · omega
    · intro _
      exact Or.inl rfl

/-- C2 witness: the invariant instantiated at the success-on-last-attempt
provider, where the hypothesis `retries = max_retries` actually fires. -/
theorem process_page_retries_invariant_witness :
    (process_page retryOnceProvider 1 0 Option.none
        { defaultConfig with max_retries := 1 }).retries ≤
      ({ defaultConfig with max_retries := 1 } : ConversionConfig).max_retries ∧
    ((process_page retryOnceProvider 1 0 Option.none
        { defaultConfig with max_retries := 1 }).retries =
        ({ defaultConfig with max_retries := 1 } : ConversionConfig).max_retries →
      (process_page retryOnceProvider 1 0 Option.none
          { defaultConfig with max_retries := 1 }).error.isSome = true ∨
      ((process_page retryOnceProvider 1 0 Option.none
          { defaultConfig with max_retries := 1 }).error = Option.none ∧
        (retryOnceProvider
            (buildMessages { defaultConfig with max_retries := 1 } Option.none 0)
            ({ defaultConfig with max_retries := 1 } : ConversionConfig).max_retries).isOk = true ∧
        ∀ j < ({ defaultConfig with max_retries := 1 } : ConversionConfig).max_retries,
          (retryOnceProvider
              (buildMessages { defaultConfig with max_retries := 1 } Option.none 0)
              j).isOk = false)) :=
  process_page_retries_invariant retryOnceProvider
    { defaultConfig with max_retries := 1 } 1 0 Option.none

-- ═══════════════════════════ Claim C9 ═══════════════════════════════════

/-- C9 counterexample: a two-byte file (content `[0x25, 0x50]`, i.e. `"%P"`)
is not a PDF, yet both magic checks accept it — files shorter than four
bytes are not covered by the validation. -/
theorem magic_check_short_file_passes :
    resolveLocalMagicCheck ("tiny.pdf".data) [0x25, 0x50] = .ok () ∧
    downloadMagicCheck ("tiny.pdf".data) [0x25, 0x50] = .ok () ∧
    List.take 4 [0x25, 0x50] ≠ pdfMagic := by
  exact ⟨rfl, rfl, by decide⟩

/-- C9 (amended): input resolution fails with `NotAPdf` (carrying the path
and the first four bytes) *iff* the file has at least four bytes and they
differ from `%PDF`; files shorter than four bytes pass the magic
validation, for both the local-file and the download path. -/
theorem magic_check_characterisation (path : Str) (content : List Nat) :
    resolveLocalMagicCheck path content =
      (if 4 ≤ content.length ∧ content.take 4 ≠ pdfMagic then
        .error (.notAPdf path (content.take 4)) else .ok ()) ∧
    downloadMagicCheck path content =
      (if 4 ≤ content.length ∧ content.take 4 ≠ pdfMagic then
        .error (.notAPdf path (content.take 4)) else .ok ()) := by
  constructor
  · unfold resolveLocalMagicCheck readExact4
    by_cases h : 4 ≤ content.length
    · rw [if_pos h]
      dsimp only
      by_cases hm : content.take 4 = pdfMagic
      · rw [if_neg (not_not_intro hm), if_neg (fun hc => hc.2 hm)]
      · rw [if_pos hm, if_pos ⟨h, hm⟩]
    · rw [if_neg h, if_neg (fun hc => h hc.1)]
  · rfl

-- ═══════════════════════════ Claim C10 ══════════════════════════════════

/-- C10: in the sequential (`maintain_format = true`) branch of
`convert_stream`, every page is processed independently with
`prior_markdown = None`, and consequently every VLM call carries exactly
the system prompt and the image message — no format-continuity context
message is ever built, unlike the eager `convert` path. -/
theorem convert_stream_seq_no_prior (provider : Provider) (cfg : ConversionConfig)
    (pages : List (Nat × ImageData)) :
    convertStreamSeq provider cfg pages =
      pages.map (fun pi => streamSeqStep provider cfg pi.1 pi.2) ∧
    ∀ image_data : ImageData,
      buildMessages cfg Option.none image_data =
        [ChatMessage.system (cfg.system_prompt.getD DEFAULT_SYSTEM_PROMPT),
         ChatMessage.userWithImages [] [image_data]] := by
  constructor
  · induction pages with
    | nil => rfl
    | cons p rest ih =>
      obtain ⟨idx, img⟩ := p
      simp [convertStreamSeq, ih]
  · intro image_data
    unfold buildMessages
    cases cfg.maintain_format <;> rfl

-- ═══════════════════════════ Claim C5 ═══════════════════════════════════

/-- A provider that always succeeds with the markdown `"hi"`. -/
def alwaysHiProvider : Provider := fun _ _ => .ok ⟨"hi".data, 1, 1⟩

/-- A two-page channel content for the sequential scheduler. -/
def seqDemoPages : List EncodedPage := [⟨0, 0, 0⟩, ⟨1, 0, 0⟩]

/-- C5 counterexample: in sequential mode the context handed to the second
VLM call is the *raw* markdown `"hi"` of the first (successful) page, not
its post-processed form `clean_markdown "hi" = "hi\n"` — the claim that
`prior_markdown` is the post-processed markdown fails. -/
theorem seq_prior_raw_not_cleaned :
    ((seqLazyTrace alwaysHiProvider { defaultConfig with maintain_format := true }
        seqDemoPages Option.none).get ⟨1, by decide⟩).1 = some ("hi".data) ∧
    (process_page alwaysHiProvider 1 0 Option.none
        { defaultConfig with maintain_format := true }).error = Option.none ∧
    (process_page alwaysHiProvider 1 0 Option.none
        { defaultConfig with maintain_format := true }).markdown = "hi".data ∧
    clean_markdown ("hi".data) ≠ "hi".data := by
  exact ⟨by decide, by decide, by decide, by decide⟩

theorem getLast?_getD_cons (r : PageResult) (F : List PageResult) (prior : Option Str) :
    ((F.getLast?.map (fun q => some q.markdown)).getD (some r.markdown)) =
      (((r :: F).getLast?.map (fun q => some q.markdown)).getD prior) := by
  cases F with
  | nil => rfl
  | cons x F' =>
    rw [List.getLast?_cons_cons]
    cases hgl : (x :: F').getLast? with
    | none =>
      exfalso
      have h1 : (x :: F').getLast?.isSome = true := List.getLast?_isSome.mpr (by simp)
      rw [hgl] at h1
      simp at h1
    | some y => rfl

theorem seqLazyTrace_prior_aux (provider : Provider) (cfg : ConversionConfig) :
    ∀ (pages : List EncodedPage) (prior : Option Str) (i : Nat)
      (h : i < (seqLazyTrace provider cfg pages prior).length),
      ((seqLazyTrace provider cfg pages prior)[i]).1 =
        (((((seqLazyTrace provider cfg pages prior).map Prod.snd).take i).filter
            (fun r => r.error.isNone)).getLast?.map
          (fun r => some r.markdown)).getD prior := by
  intro pages
  induction pages with
  | nil =>
    intro prior i h
    simp [seqLazyTrace] at h
  | cons page rest ih =>
    intro prior i h
    have hstep : seqLazyTrace provider cfg (page :: rest) prior =
        (prior, process_page provider (page.page_index + 1) page.image_data prior cfg) ::
          seqLazyTrace provider cfg rest
            (if (process_page provider (page.page_index + 1) page.image_data prior cfg).error.isNone
             then some (process_page provider (page.page_index + 1) page.image_data prior cfg).markdown
             else prior) := rfl
    cases i with
    | zero =>
      simp only [hstep, List.getElem_cons_zero, List.take_zero]
      simp
    | succ j =>
      have hlen : j < (seqLazyTrace provider cfg rest
          (if (process_page provider (page.page_index + 1) page.image_data prior cfg).error.isNone
           then some (process_page provider (page.page_index + 1) page.image_data prior cfg).markdown
           else prior)).length := by
        rw [hstep] at h
        simpa using h
      simp only [hstep, List.getElem_cons_succ, List.map_cons, List.take_succ_cons]
      rw [ih _ j hlen]
      by_cases hr : (process_page provider (page.page_index + 1) page.image_data prior cfg).error.isNone = true
      · rw [if_pos hr,
          @List.filter_cons_of_pos _ (fun r => r.error.isNone)
            (process_page provider (page.page_index + 1) page.image_data prior cfg) _ hr]
        exact getLast?_getD_cons _ _ _
      · rw [if_neg hr,
          @List.filter_cons_of_neg _ (fun r => r.error.isNone)
            (process_page provider (page.page_index + 1) page.image_data prior cfg) _ hr]

/-- C5 (amended): in sequential mode (`maintain_format = true`), the
`prior_markdown` handed to each VLM call is the *raw* markdown (as returned
by `process_page`, before post-processing) of the last successful page
among the preceding results, and `None` when no earlier page succeeded —
so failed pages leave the context unchanged. -/
theorem seq_prior_is_last_success_raw (provider : Provider) (cfg : ConversionConfig)
    (pages : List EncodedPage) (i : Nat)
    (h : i < (seqLazyTrace provider cfg pages Option.none).length) :
    ((seqLazyTrace provider cfg pages Option.none)[i]).1 =
      ((((seqLazyTrace provider cfg pages Option.none).map Prod.snd).take i).filter
          (fun r => r.error.isNone)).getLast?.map (fun r => r.markdown) := by
  rw [seqLazyTrace_prior_aux provider cfg pages Option.none i h]
  cases hg : ((((seqLazyTrace provider cfg pages Option.none).map Prod.snd).take i).filter
      (fun r => r.error.isNone)).getLast? with
  | none => rfl
  | some r => rfl

/-- C5 witness: the characterisation instantiated on the two-page run. -/
theorem seq_prior_is_last_success_raw_witness :
    ((seqLazyTrace alwaysHiProvider { defaultConfig with maintain_format := true }
        seqDemoPages Option.none).get ⟨1, by decide⟩).1 =
      ((((seqLazyTrace alwaysHiProvider { defaultConfig with maintain_format := true }
          seqDemoPages Option.none).map Prod.snd).take 1).filter
          (fun r => r.error.isNone)).getLast?.map (fun r => r.markdown) :=
  seq_prior_is_last_success_raw alwaysHiProvider
    { defaultConfig with maintain_format := true } seqDemoPages 1 (by decide)

-- ═══════════════════════════ Claim C6 ═══════════════════════════════════

/-- Whether `convert`'s result is the fatal error `AllPagesFailed`. -/
def isAllPagesFailed : Except Pdf2MdError ConversionOutput → Bool
  | .error (.allPagesFailed _ _ _) => true
  | _ => false

theorem error_postprocess (p : PageResult) :
    (if p.error.isNone then { p with markdown := clean_markdown p.markdown } else p).error
      = p.error := by
  by_cases h : p.error.isNone = true
  · rw [if_pos h]
  · rw [if_neg h]

theorem sortByPageNum_perm (l : List PageResult) : (sortByPageNum l).Perm l :=
  List.mergeSort_perm l _

theorem no_success_iff (results : List PageResult) :
    ((sortByPageNum (postprocessPages results)).filter
        (fun p => p.error.isNone)).length = 0 ↔
      ∀ p ∈ results, p.error.isSome = true := by
  rw [List.length_eq_zero, List.filter_eq_nil_iff]
  constructor
  · intro hall p hp
    have h1 := hall _ (((sortByPageNum_perm (postprocessPages results)).mem_iff).mpr
      (List.mem_map_of_mem _ hp))
    rw [error_postprocess] at h1
    cases he : p.error with
    | none => exact absurd (by rw [he]; rfl) h1
    | some e => rfl
  · intro hall q hq
    have hq2 := ((sortByPageNum_perm (postprocessPages results)).mem_iff).mp hq
    obtain ⟨p, hp, rfl⟩ := List.mem_map.mp hq2
    rw [error_postprocess]
    have := hall p hp
    cases he : p.error with
    | none => rw [he] at this; cases this
    | some e => simp

/-- C6: `convert` (in its final phase, after the scheduler has produced the
page results) returns the fatal `AllPagesFailed` iff every attempted page
carries an error (vacuously including the case of zero produced results),
and a run with at least one successful page returns `Ok`. -/
theorem convert_all_pages_failed_iff (results : List PageResult)
    (cfg : ConversionConfig) (meta : DocumentMetadata) :
    (isAllPagesFailed (convertFinish results cfg meta) = true ↔
      ∀ p ∈ results, p.error.isSome = true) ∧
    ((∃ p ∈ results, p.error = Option.none) →
      (convertFinish results cfg meta).isOk = true) := by
  constructor
  · unfold convertFinish
    by_cases hz : ((sortByPageNum (postprocessPages results)).filter
        (fun p => p.error.isNone)).length = 0
    · rw [if_pos hz]
      constructor
      · intro _
        exact (no_success_iff results).mp hz
      · intro _
        rfl
    · rw [if_neg hz]
      apply iff_of_false
      · simp [isAllPagesFailed]
      · intro hall
        exact hz ((no_success_iff results).mpr hall)
  · rintro ⟨p, hp, hnone⟩
    unfold convertFinish
    rw [if_neg (fun hz => by
      have := (no_success_iff results).mp hz p hp
      rw [hnone] at this
      cases this)]
    rfl

/-- C6 witness: a mixed run (one failed, one successful page) returns `Ok`,
with the success hypothesis discharged concretely. -/
theorem convert_all_pages_failed_iff_witness :
    (isAllPagesFailed (convertFinish
        [⟨2, [], 0, 0, 3, some (.llmFailed 2 3 ("boom".data))⟩,
         ⟨1, "ok".data, 1, 1, 0, Option.none⟩] defaultConfig
        ⟨Option.none, Option.none, Option.none, Option.none, Option.none, 2, []⟩) = true ↔
      ∀ p ∈ [(⟨2, [], 0, 0, 3, some (.llmFailed 2 3 ("boom".data))⟩ : PageResult),
             ⟨1, "ok".data, 1, 1, 0, Option.none⟩], p.error.isSome = true) ∧
    ((∃ p ∈ [(⟨2, [], 0, 0, 3, some (.llmFailed 2 3 ("boom".data))⟩ : PageResult),
             ⟨1, "ok".data, 1, 1, 0, Option.none⟩], p.error = Option.none) →
      (convertFinish
        [⟨2, [], 0, 0, 3, some (.llmFailed 2 3 ("boom".data))⟩,
         ⟨1, "ok".data, 1, 1, 0, Option.none⟩] defaultConfig
        ⟨Option.none, Option.none, Option.none, Option.none, Option.none, 2, []⟩).isOk = true) :=
  convert_all_pages_failed_iff _ defaultConfig _

-- ═══════════════════════════ Claim C7 ═══════════════════════════════════

theorem dedupConsecutive_subset : ∀ (l : List Nat) (x : Nat),
    x ∈ dedupConsecutive l → x ∈ l := by
  intro l
  induction l with
  | nil =>
    intro x hx
    simp [dedupConsecutive] at hx
  | cons a l ih =>
    intro x hx
    cases l with
    | nil => simpa [dedupConsecutive] using hx
    | cons b rest =>
      rw [dedupConsecutive] at hx
      by_cases hab : a = b
      · rw [if_pos hab] at hx
        exact List.mem_cons_of_mem a (ih x hx)
      · rw [if_neg hab] at hx
        rcases List.mem_cons.mp hx with h | h
        · simp [h]
        · exact List.mem_cons_of_mem a (ih x h)

theorem dedupConsecutive_chain : ∀ (l : List Nat), l.Pairwise (· ≤ ·) →
    List.Chain' (· < ·) (dedupConsecutive l) ∧
      ∀ c, (dedupConsecutive l).head? = some c →
        ∀ a, l.head? = some a → a ≤ c := by
  intro l
  induction l with
  | nil =>
    intro _
    refine ⟨by simp [dedupConsecutive], ?_⟩
    intro c hc
    simp [dedupConsecutive] at hc
  | cons a l ih =>
    intro hp
    cases l with
    | nil =>
      refine ⟨by simp [dedupConsecutive], ?_⟩
      intro c hc a' ha'
      simp [dedupConsecutive] at hc
      simp at ha'
      omega
    | cons b rest =>
      have hab : a ≤ b := (List.pairwise_cons.mp hp).1 b (by simp)
      obtain ⟨hch, hhd⟩ := ih (List.pairwise_cons.mp hp).2
      by_cases heq : a = b
      · rw [show dedupConsecutive (a :: b :: rest) = dedupConsecutive (b :: rest) from
          by rw [dedupConsecutive, if_pos heq]]
        refine ⟨hch, fun c hc a' ha' => ?_⟩
        have hbc : b ≤ c := hhd c hc b rfl
        simp at ha'
        omega
      · rw [show dedupConsecutive (a :: b :: rest) = a :: dedupConsecutive (b :: rest) from
          by rw [dedupConsecutive, if_neg heq]]
        have halt : a < b := lt_of_le_of_ne hab heq
        constructor
        · rw [List.chain'_cons']
          refine ⟨?_, hch⟩
          intro y hy
          have hby : b ≤ y := hhd y (Option.mem_def.mp hy) b rfl
          omega
        · intro c hc a' ha'
          simp at hc ha'
          omega

theorem mergeSortNat_pairwise (l : List Nat) :
    (l.mergeSort (fun a b => a ≤ b)).Pairwise (· ≤ ·) := by
  have htrans : ∀ (a b c : Nat),
      decide (a ≤ b) = true → decide (b ≤ c) = true → decide (a ≤ c) = true := by
    intro a b c h1 h2
    exact decide_eq_true (le_trans (of_decide_eq_true h1) (of_decide_eq_true h2))
  have htot : ∀ (a b : Nat), (decide (a ≤ b) || decide (b ≤ a)) = true := by
    intro a b
    rcases Nat.le_total a b with h | h
    · rw [decide_eq_true h]
      rfl
    · rw [decide_eq_true h]
      simp
  exact (List.sorted_mergeSort htrans htot l).imp (fun hab => of_decide_eq_true hab)

/-- C7: for every `PageSelection` and page count, `to_indices` returns a
strictly sorted (hence duplicate-free) list of 0-indexed positions, each
strictly below the page count. -/
theorem to_indices_sorted_bounded (sel : PageSelection) (total : Nat) :
    List.Chain' (· < ·) (to_indices sel total) ∧
      ∀ x ∈ to_indices sel total, x < total := by
  constructor
  · exact (dedupConsecutive_chain _ (mergeSortNat_pairwise _)).1
  · intro x hx
    cases sel with
    | all =>
      have h1 := dedupConsecutive_subset _ x (by simpa [to_indices] using hx)
      have h2 := (List.mergeSort_perm _ _).mem_iff.mp h1
      simpa using h2
    | single p =>
      have h1 := dedupConsecutive_subset _ x (by simpa [to_indices] using hx)
      have h2 := (List.mergeSort_perm _ _).mem_iff.mp h1
      by_cases hp : 1 ≤ p ∧ p ≤ total
      · rw [if_pos hp] at h2
        simp at h2
        omega
      · rw [if_neg hp] at h2
        simp at h2
    | range s e =>
      have h1 := dedupConsecutive_subset _ x (by simpa [to_indices] using hx)
      have h2 := (List.mergeSort_perm _ _).mem_iff.mp h1
      rw [List.mem_range'] at h2
      obtain ⟨i, hi, hxi⟩ := h2
      omega
    | set ps =>
      have h1 := dedupConsecutive_subset _ x (by simpa [to_indices] using hx)
      have h2 := (List.mergeSort_perm _ _).mem_iff.mp h1
      obtain ⟨p, hpmem, rfl⟩ := List.mem_map.mp h2
      have hf := (List.mem_filter.mp hpmem).2
      simp at hf
      omega

/-- C7 witness: the invariant instantiated at `Set [3,1,3,2]` with 5 pages
(whose expansion the spec gives as `[0,1,2]`). -/
theorem to_indices_sorted_bounded_witness :
    List.Chain' (· < ·) (to_indices (.set [3, 1, 3, 2]) 5) ∧
      ∀ x ∈ to_indices (.set [3, 1, 3, 2]) 5, x < 5 :=
  to_indices_sorted_bounded (.set [3, 1, 3, 2]) 5

-- ═══════════════════════════ Claim C8 ═══════════════════════════════════

/-- Spec-side rendering (from the spec's words): the successful pages
joined so that between each adjacent pair the separator is rendered for
the *second* page of the pair. -/
def specJoinPages (sep : PageSeparator) : List PageResult → Str
  | [] => []
  | [p] => p.markdown
  | p :: q :: rest => p.markdown ++ sep.render q.page_num ++ specJoinPages sep (q :: rest)

/-- The tail of the spec-side rendering: every page preceded by its
separator. -/
def sepTailJoin (sep : PageSeparator) : List PageResult → Str
  | [] => []
  | q :: rest => sep.render q.page_num ++ q.markdown ++ sepTailJoin sep rest

theorem specJoinPages_cons (sep : PageSeparator) :
    ∀ (rest : List PageResult) (p : PageResult),
      specJoinPages sep (p :: rest) = p.markdown ++ sepTailJoin sep rest := by
  intro rest
  induction rest with
  | nil =>
    intro p
    simp [specJoinPages, sepTailJoin]
  | cons q rest ih =>
    intro p
    rw [specJoinPages, ih q, sepTailJoin]
    simp [List.append_assoc]

theorem enumFrom_flatten (sep : PageSeparator) :
    ∀ (rest : List PageResult) (n : Nat),
      ((List.enumFrom (n + 1) rest).map (fun ip =>
        (if ip.1 ≠ 0 then sep.render ip.2.page_num else []) ++ ip.2.markdown)).flatten =
        sepTailJoin sep rest := by
  intro rest
  induction rest with
  | nil =>
    intro n
    rfl
  | cons q rest ih =>
    intro n
    rw [List.enumFrom_cons, List.map_cons, List.flatten_cons, ih (n + 1), sepTailJoin]
    rw [if_pos (Nat.succ_ne_zero n)]

theorem pageNumSort_pairwise (l : List PageResult) :
    (sortByPageNum l).Pairwise (fun p q => p.page_num ≤ q.page_num) := by
  have htrans : ∀ (a b c : PageResult),
      decide (a.page_num ≤ b.page_num) = true → decide (b.page_num ≤ c.page_num) = true →
        decide (a.page_num ≤ c.page_num) = true := by
    intro a b c h1 h2
    exact decide_eq_true (le_trans (of_decide_eq_true h1) (of_decide_eq_true h2))
  have htot : ∀ (a b : PageResult),
      (decide (a.page_num ≤ b.page_num) || decide (b.page_num ≤ a.page_num)) = true := by
    intro a b
    rcases Nat.le_total a.page_num b.page_num with h | h
    · rw [decide_eq_true h]
      rfl
    · rw [decide_eq_true h]
      simp
  exact (List.sorted_mergeSort htrans htot l).imp (fun hab => of_decide_eq_true hab)

/-- C8: after the sort of convert.rs step 8, the assembled document is
exactly the optional YAML front-matter followed by the markdown of the
successful pages, whose page numbers are in ascending order, with the
configured separator rendered for the second page of each adjacent pair
inserted between consecutive successful pages. -/
theorem assemble_document_spec (pages : List PageResult) (cfg : ConversionConfig)
    (meta : DocumentMetadata) :
    assemble_document (sortByPageNum pages) cfg meta =
      (if cfg.include_metadata then format_yaml_front_matter meta else []) ++
        specJoinPages cfg.page_separator
          ((sortByPageNum pages).filter (fun p => p.error.isNone)) ∧
    List.Pairwise (· ≤ ·)
      (((sortByPageNum pages).filter (fun p => p.error.isNone)).map
        (fun p => p.page_num)) := by
  constructor
  · unfold assemble_document
    rw [List.flatten_append]
    congr 1
    · by_cases hm : cfg.include_metadata = true
      · rw [if_pos hm, if_pos hm]
        simp
      · rw [if_neg hm, if_neg hm]
        rfl
    · generalize (sortByPageNum pages).filter (fun p => p.error.isNone) = succ
      cases succ with
      | nil => rfl
      | cons p rest =>
        rw [List.enum_cons, List.map_cons, List.flatten_cons,
          enumFrom_flatten cfg.page_separator rest 0, specJoinPages_cons]
        rw [if_neg (by simp)]
        simp
  · exact List.pairwise_map.mpr ((pageNumSort_pairwise pages).filter _)

end Pdf2Md
